import Mathlib

/-!
Shallow embedding of `src/iwilldo.py` (the IntakeToolkit Sublime plugin) and
proofs about it.  Pure pieces of the plugin (string edits, rendering,
classification) are translated as Lean functions; the stateful session object
`IWillDoList` becomes an explicit state record with its methods as state
transformers; the background worker threads are modelled by the data they
compute and by the boolean loop-continuation condition of their `run` loops.
Dynamic JSON dictionaries are modelled as records of optional fields, and a
Python `KeyError` as `Except.error`.
-/

namespace IntakeToolkit

/-! ## Data model (section 3 of the spec; dict shapes read by `iwilldo.py`) -/

/-- One entry of a fetched list: `{id, name, claimed_by, closed}` as the code
reads it (`item['id']`, `item['name']`, `item['claimed_by']`,
`item['closed']`). -/
structure Item where
  id : String
  name : String
  claimed_by : String
  closed : Bool
deriving DecidableEq, Repr

/-- One group of a fetched list: `{title, items}`. -/
structure Group where
  title : String
  items : List Item
deriving DecidableEq, Repr

/-- A fetched JSON payload with exactly the keys `iwilldo.py` reads
(`error`, `bts_issue`, `title`, `base_commit`, `groups`); each field is
optional, mirroring dynamic key presence in the Python dict.  `none` models
an absent key, so `data['k']` on a `none` field is a `KeyError`. -/
structure Data where
  error : Option String := none
  bts_issue : Option String := none
  title : Option String := none
  base_commit : Option String := none
  groups : Option (List Group) := none
deriving DecidableEq, Repr

/-- Per-path copied-file record as read by the plugin:
`copied['last_synchronized']` and `copied['copied_from_path']`. -/
structure PathMetadata where
  copied_from_path : String
  last_synchronized : String
deriving DecidableEq, Repr

/-! ## Path helpers (`normalize_path`, `get_item_path`) -/

/-- Translation of `normalize_path`: `path.strip().replace('\\', '/')`. -/
def normalize_path (path : String) : String :=
  (path.trim).replace "\\" "/"

/-- Translation of `re.sub(r' \(ERROR\)$', '', name)` in `get_item_path`:
drop one trailing literal `" (ERROR)"` when present. -/
def strip_error_suffix (name : String) : String :=
  if name.endsWith " (ERROR)" then name.dropRight 8 else name

/-- Translation of POSIX `os.path.join(a, b)` for the two-argument uses in
`iwilldo.py`. -/
def os_path_join (a b : String) : String :=
  if b.startsWith "/" then b
  else if a = "" then b
  else if a.endsWith "/" then a ++ b
  else a ++ "/" ++ b

/-- Translation of `get_item_path(item)`: absolute, normalized path of an
item, relative to the repository root. -/
def get_item_path (reporoot : String) (item : Item) : String :=
  normalize_path (os_path_join reporoot (strip_error_suffix item.name))

/-! ## Session state (`IWillDoList.__init__` fields used by the claims) -/

/-- State of the global `IWillDoList` object.  `view` holds the id of the
attached list view (`None` when detached); `repeating_thread` holds the id of
the stored repeating `NetworkWorkerThread`.  `stopped_threads` records every
worker id whose `stop()` has been called (its `_stop_event` is set);
`next_thread_id` and `stored_repeating_history` are bookkeeping for thread
identity: `next_thread_id` is the id the next created worker gets and
`stored_repeating_history` lists every id ever assigned to
`_repeating_thread`, newest first. -/
structure IWillDoListState where
  view : Option Nat
  line_to_item_mapping : List (Nat × Item)
  copied_info_data : String → Option PathMetadata
  username : String
  reporoot : String
  upstream_sha : String
  mergetool : String
  repeating_thread : Option Nat
  stopped_threads : List Nat
  next_thread_id : Nat
  stored_repeating_history : List Nat

/-! ## Claim toggling (`WillDoListItemToggleClaimCommand._toggle_username_in`) -/

/-- Character-level translation of Python `text.split(' ')`: split on each
single space character; the empty string yields `[""]` (one empty word), and
consecutive spaces yield empty words. -/
def py_split_space : List Char → List (List Char)
  | [] => [[]]
  | c :: rest =>
    match py_split_space rest with
    | [] => [[]]
    | w :: ws => if c = ' ' then [] :: w :: ws else (c :: w) :: ws

/-- Character-level translation of Python `' '.join(words)`. -/
def join_space : List (List Char) → List Char
  | [] => []
  | [w] => w
  | w :: v :: rest => w ++ ' ' :: join_space (v :: rest)

/-- Translation of `WillDoListItemToggleClaimCommand._toggle_username_in`:
`users = [] if not text else text.split(' ')`; remove `current_user` if
present (Python `list.remove` drops the first occurrence), else append it;
`' '.join(users)`. -/
def toggle_username_in (current_user text : String) : String :=
  let users : List (List Char) :=
    if text.data = [] then [] else py_split_space text.data
  let users2 :=
    if current_user.data ∈ users then users.erase current_user.data
    else users ++ [current_user.data]
  String.mk (join_space users2)

/-- The toggle edit as the spec words it: split `claimed_by` on single
spaces with the empty string giving the empty list, remove the identity if
it is present else append it at the end, preserving the order of the other
entries, and space-join the result. -/
def toggleClaimSpec (current_user text : String) : String :=
  let entries : List (List Char) :=
    if text.data = [] then [] else py_split_space text.data
  let edited :=
    if current_user.data ∈ entries then entries.erase current_user.data
    else entries ++ [current_user.data]
  String.mk (join_space edited)

/-! ## Classification (`WillDoListUpdateGutterMarksCommand.run`,
`IWillDoList.get_copied_info_for_item`) -/

/-- Translation of `IWillDoList.get_copied_info_for_item`: look the item's
absolute path up in `_copied_info_data`, `None` when absent. -/
def get_copied_info_for_item (s : IWillDoListState) (item : Item) :
    Option PathMetadata :=
  s.copied_info_data (get_item_path s.reporoot item)

/-- The three gutter classes of `WillDoListUpdateGutterMarksCommand.run`:
which of the three region lists a tracked line is appended to. -/
inductive Classification where
  | processed
  | unprocessed
  | invalid
deriving DecidableEq, Repr

/-- Translation of the per-line branch of
`WillDoListUpdateGutterMarksCommand.run`: no copied info means `invalid`;
`copied['last_synchronized'] == get_upstream_sha()` means `processed`;
otherwise `unprocessed`. -/
def classify_item (s : IWillDoListState) (item : Item) : Classification :=
  match get_copied_info_for_item s item with
  | none => Classification.invalid
  | some copied =>
    if copied.last_synchronized = s.upstream_sha then Classification.processed
    else Classification.unprocessed

/-! ## Rendering (`WillDoListUpdateWithDataCommand`) -/

/-- Pref name constant `PREF_NAME_MERGETOOL`. -/
def PREF_NAME_MERGETOOL : String := "will_do_list_merge_tool"

/-- One entry of the `COMMANDS` table: shortcut, description, command name. -/
structure CommandSpec where
  key : String
  desc : String
  command : String
deriving DecidableEq, Repr

/-- Translation of the `COMMANDS` table. -/
def COMMANDS : List CommandSpec :=
  [ ⟨"c", "claim/unclaim the file(s)", "will_do_list_item_toggle_claim"⟩,
    ⟨"m", "run merge tool on the file(s)", "will_do_list_item_merge"⟩,
    ⟨"d", "show diff of the upstream changes", "will_do_list_item_diff"⟩,
    ⟨"ctrl+d", "compare local and upstream files in an external tool",
      "will_do_list_item_compare"⟩,
    ⟨"o", "open the file", "will_do_list_item_open"⟩,
    ⟨"alt+o", "open upstream file", "will_do_list_item_open_upstream"⟩,
    ⟨"u", "update last-modified SHA of the file(s)",
      "will_do_list_item_update_sha"⟩,
    ⟨"l", "show git log affecting given file", "will_do_list_item_git_log"⟩ ]

/-- The `_output` list and `_current_line` counter of
`WillDoListUpdateWithDataCommand`. -/
structure LineBuffer where
  output : List String
  current_line : Nat
deriving Repr

/-- Count of newline characters in a string (Python `text.count('\n')`). -/
def count_nl (s : String) : Nat := s.data.count '\n'

/-- Translation of `_reset_line_data`. -/
def reset_line_data : LineBuffer := ⟨[], 0⟩

/-- Translation of `_add_line`: append the text to `_output` and advance
`_current_line` by `text.count('\n') + 1`. -/
def add_line (b : LineBuffer) (text : String) : LineBuffer :=
  ⟨b.output ++ [text], b.current_line + count_nl text + 1⟩

/-- A sequence of `_add_line` calls. -/
def add_lines (b : LineBuffer) (texts : List String) : LineBuffer :=
  texts.foldl add_line b

/-- Translation of `_get_output`: `'\n'.join(self._output)`. -/
def join_nl : List String → String
  | [] => ""
  | [t] => t
  | t :: u :: rest => t ++ "\n" ++ join_nl (u :: rest)

/-- Text of one rendered item line:
`'  %s [%s] %s' % ('√' if closed else ' ', claimed_by, name)`. -/
def item_line (item : Item) : String :=
  "  " ++ (if item.closed then "√" else " ") ++ " [" ++ item.claimed_by ++
    "] " ++ item.name

/-- Header lines added by `WillDoListUpdateWithDataCommand.run` before the
groups loop (`now` stands for the `strftime` result). -/
def header_lines (now mergetool bts_issue title base_commit : String) :
    List String :=
  [ bts_issue ++ ": " ++ title,
    "Clean upstream: " ++ base_commit,
    "Last updated: " ++ now,
    "",
    "Used merge tool: " ++ mergetool ++ " (set \"" ++ PREF_NAME_MERGETOOL ++
      "\" pref if you want to change\n                 to one of the other " ++
      "supported tools: patch, kdiff3, merge, p4merge)",
    "",
    "Keyboard shortcuts:" ]
  ++ COMMANDS.map (fun c => "  " ++ c.key ++ " - " ++ c.desc)
  ++ [""]

/-- The inner items loop of the groups loop: record
`line_to_item_mapping[self._current_line] = item`, then add the item's
line. -/
def render_items (b : LineBuffer) (m : List (Nat × Item)) :
    List Item → LineBuffer × List (Nat × Item)
  | [] => (b, m)
  | item :: rest =>
    render_items (add_line b (item_line item)) (m ++ [(b.current_line, item)])
      rest

/-- The groups loop: for each group add its title line, render its items,
then add one blank line. -/
def render_groups (b : LineBuffer) (m : List (Nat × Item)) :
    List Group → LineBuffer × List (Nat × Item)
  | [] => (b, m)
  | g :: rest =>
    let st := render_items (add_line b g.title) m g.items
    render_groups (add_line st.1 "") st.2 rest

/-- Translation of `WillDoListUpdateWithDataCommand.run`.  Returns the
updated session state together with the `_output` line list that is joined
and written into the view; dynamic key accesses on absent keys give
`Except.error "KeyError"`.  On the error branch only the error text is added
and the session state is untouched; on the data branch the header and the
groups are rendered and `set_line_to_item_mapping` / `set_upstream_sha` are
applied. -/
def updateWithDataRun (now : String) (s : IWillDoListState) (data : Data) :
    Except String (IWillDoListState × List String) :=
  match data.error with
  | some msg => Except.ok (s, (add_line reset_line_data msg).output)
  | none =>
    match data.bts_issue, data.title, data.base_commit, data.groups with
    | some bts, some title, some base, some groups =>
      let b := add_lines reset_line_data
        (header_lines now s.mergetool bts title base)
      let st := render_groups b [] groups
      Except.ok
        ({ s with line_to_item_mapping := st.2, upstream_sha := base },
          st.1.output)
    | _, _, _, _ => Except.error "KeyError"

/-! ## Session lifecycle and workers (`IWillDoList` methods,
`NetworkWorkerThread.run`) -/

/-- Commands the session runs on the attached view. -/
inductive ViewCommand where
  | update_with_data (d : Data)
  | update_gutter_marks
deriving DecidableEq, Repr

/-- Translation of `IWillDoList._stop_repeating_thread_if_started`: when a
repeating worker is stored, call its `stop()` (its `_stop_event` becomes
set, recorded in `stopped_threads`) and clear the handle. -/
def stop_repeating_thread_if_started (s : IWillDoListState) :
    IWillDoListState :=
  match s.repeating_thread with
  | some t =>
    { s with stopped_threads := t :: s.stopped_threads,
             repeating_thread := none }
  | none => s

/-- Translation of `IWillDoList.on_view_closing`: when the closing view is
the session's own view, drop the view handle and stop the repeating worker
if one is running. -/
def on_view_closing (s : IWillDoListState) (closing_view : Nat) :
    IWillDoListState :=
  if s.view = some closing_view then
    stop_repeating_thread_if_started { s with view := none }
  else s

/-- Translation of `IWillDoList.update_view_with_data`: the view commands
the call runs — `will_do_list_update_with_data` when a view is attached,
nothing otherwise. -/
def update_view_with_data (s : IWillDoListState) (data : Data) :
    List ViewCommand :=
  match s.view with
  | some _ => [ViewCommand.update_with_data data]
  | none => []

/-- Translation of the loop tail of `NetworkWorkerThread.run`:
`if not self._repeating or self._stop_event.is_set(): break`.  The worker
begins another fetch cycle exactly when this yields `true`. -/
def worker_begins_next_cycle (repeating stop_event_set : Bool) : Bool :=
  repeating && !stop_event_set

/-- Translation of `IWillDoList.trigger_update`.  `buffer_closed` models the
liveness pre-check `self._view.buffer_id() == 0` (the view object survives
but its buffer is gone): when it holds, `on_view_closing` runs first.  Then,
when a view is attached, a fresh `NetworkWorkerThread` is created and
started (it gets id `next_thread_id`); when `repeating`, the old repeating
worker is stopped and the new one is stored. -/
def trigger_update (s : IWillDoListState) (repeating buffer_closed : Bool) :
    IWillDoListState :=
  let s1 :=
    match s.view with
    | some vid => if buffer_closed then on_view_closing s vid else s
    | none => s
  match s1.view with
  | none => s1
  | some _ =>
    let tid := s1.next_thread_id
    let s2 := { s1 with next_thread_id := tid + 1 }
    if repeating then
      let s3 := stop_repeating_thread_if_started s2
      { s3 with repeating_thread := some tid,
                stored_repeating_history := tid :: s3.stored_repeating_history }
    else s2

/-- A sequence of `trigger_update(repeating=True)` calls with the view
staying alive. -/
def apply_triggers (s : IWillDoListState) : Nat → IWillDoListState
  | 0 => s
  | n + 1 => trigger_update (apply_triggers s n) true false

/-! ## Diff action (`WillDoListItemDiffCommand.run`) -/

/-- Translation of the output handling in `WillDoListItemDiffCommand.run`:
`run_process` hands back `(output, returncode)` (output is `None` when the
process printed nothing) and `if returncode != 1: output = 'No changes'`. -/
def diff_displayed_output (output : Option String) (returncode : Int) :
    Option String :=
  if returncode ≠ 1 then some "No changes" else output

/-- Per-item behaviour of `WillDoListItemDiffCommand.run`: items without
resolvable copied info are silently skipped (`none`); otherwise the content
surfaced in the new view is `diff_displayed_output`. -/
def diff_item_result (s : IWillDoListState) (item : Item)
    (output : Option String) (returncode : Int) : Option (Option String) :=
  match get_copied_info_for_item s item with
  | none => none
  | some _ => some (diff_displayed_output output returncode)

/-! ## Local metadata scan (`CopiedInfoFetcherFileIOThread.run`,
`IWillDoList.update_copied_info_data`) -/

/-- Translation of the loop of `CopiedInfoFetcherFileIOThread.run`: walk the
path list, and for each path that exists on disk store
`CopiedFile.create(path, reporoot)` under that path.  The on-disk state is a
parameter: `fs_exists` models `os.path.exists` and `copied_file_create`
models `CopiedFile.create` (an external collaborator); the built dict is
modelled as a lookup function. -/
def copied_info_scan (fs_exists : String → Bool)
    (copied_file_create : String → PathMetadata) :
    List String → (String → Option PathMetadata) → String → Option PathMetadata
  | [], d => d
  | p :: ps, d =>
    copied_info_scan fs_exists copied_file_create ps
      (if fs_exists p then
        fun q => if q = p then some (copied_file_create p) else d q
      else d)

/-- The whole thread body: the scan started from the empty dict. -/
def copied_info_fetcher_run (fs_exists : String → Bool)
    (copied_file_create : String → PathMetadata) (paths : List String) :
    String → Option PathMetadata :=
  copied_info_scan fs_exists copied_file_create paths (fun _ => none)

/-- Translation of `IWillDoList.update_copied_info_data`: build the path
list from `data['groups']` (a `KeyError` when the key is absent) and hand it
to the file-IO thread; the value is the path list handed over. -/
def update_copied_info_data (s : IWillDoListState) (data : Data) :
    Except String (List String) :=
  match data.groups with
  | none => Except.error "KeyError"
  | some groups =>
    Except.ok (groups.foldl
      (fun paths g => paths ++ g.items.map (get_item_path s.reporoot)) [])

/-- Translation of the static callback `IWillDoList.on_data_fetched`: run
the view-update step (the update command runs only when a view is
attached), then the metadata-scan kickoff step; a `KeyError` in either step
propagates. -/
def on_data_fetched (now : String) (s : IWillDoListState) (data : Data) :
    Except String (IWillDoListState × List String) :=
  match (if s.view.isSome then updateWithDataRun now s data
         else Except.ok (s, [])) with
  | Except.error e => Except.error e
  | Except.ok (s1, _) =>
    match update_copied_info_data s1 data with
    | Except.error e => Except.error e
    | Except.ok paths => Except.ok (s1, paths)

/-! ## Selection resolution (`IWillDoList.get_items_for_selection`) -/

/-- Python dict lookup in `_line_to_item_mapping` (its keys are distinct in
every mapping the plugin builds, so first-match lookup is dict lookup). -/
def lookup_item : List (Nat × Item) → Nat → Option Item
  | [], _ => none
  | (k, item) :: rest, n => if k = n then some item else lookup_item rest n

/-- Translation of `IWillDoList.get_items_for_selection`.  The view geometry
is abstracted: `sel` gives, for each selection region, the line numbers of
the lines the region covers (`view.rowcol(line_region.a)[0]` for each of
`view.lines(region)`).  Faithfully to the source, the per-region `lines`
list starts empty and is never appended to, so the `line_nr not in lines`
check never filters anything. -/
def get_items_for_selection (s : IWillDoListState) (sel : List (List Nat)) :
    List Item :=
  sel.foldl
    (fun items region_lines =>
      (region_lines.foldl
        (fun (st : List Nat × List Item) line_nr =>
          if line_nr ∈ st.1 then st
          else
            match lookup_item s.line_to_item_mapping line_nr with
            | some item => (st.1, st.2 ++ [item])
            | none => st)
        ([], items)).2)
    []

/-! ## Sample values for witnesses and concrete evaluations -/

/-- A sample copied-file record. -/
def sample_info : PathMetadata := ⟨"chromium/src/a.cc", "abc123"⟩

/-- A sample list item. -/
def sample_item : Item := ⟨"17", "a.cc", "", false⟩

/-- A sample attached session whose metadata cache resolves every path. -/
def sample_state : IWillDoListState :=
  { view := some 1,
    line_to_item_mapping := [],
    copied_info_data := fun _ => some sample_info,
    username := "alice",
    reporoot := "/repo",
    upstream_sha := "abc123",
    mergetool := "p4merge",
    repeating_thread := none,
    stopped_threads := [],
    next_thread_id := 0,
    stored_repeating_history := [] }

/-- The unified error payload the fetch boundary produces on a failed
fetch. -/
def error_payload : Data := { error := some "Failed retrieving data. timeout" }

/-! ## Row accounting of the rendering buffer -/

/-- Number of rendered rows a list of buffer entries occupies once joined
with newlines: each entry `t` begins a new row and spans `count_nl t + 1`
rows. -/
def rows_before (out : List String) : Nat :=
  out.length + (out.map count_nl).sum

/-- Every key of the mapping is the count of rendered rows strictly before
that item's own line in the output entry list. -/
def mapping_positioned (m : List (Nat × Item)) (out : List String) : Prop :=
  ∀ k item, (k, item) ∈ m →
    ∃ pre post, out = pre ++ item_line item :: post ∧ k = rows_before pre

/-- The handle/stop bookkeeping invariant preserved by repeated triggers:
every id ever stored is either the current one or has been signalled to
stop, the current one is fresh and unsignalled, and all signalled ids are in
the already-allocated range. -/
def RepeatingInvariant (s : IWillDoListState) : Prop :=
  (∀ t ∈ s.stored_repeating_history,
      s.repeating_thread = some t ∨ t ∈ s.stopped_threads) ∧
  (∀ t, s.repeating_thread = some t →
      t ∉ s.stopped_threads ∧ t < s.next_thread_id) ∧
  (∀ t ∈ s.stopped_threads, t < s.next_thread_id)

/-! ## Theorems for C2, C3 and C4 -/

/-- C3: classification of a tracked item is total and exhaustive.  For every
session state (hence every metadata cache, including the empty one, and
every upstream marker) and every item, `classify_item` yields exactly one of
the three classes, `invalid` exactly when no metadata entry exists for the
item's path, `processed` exactly when the entry's `last_synchronized` equals
the current upstream marker, and `unprocessed` exactly otherwise. -/
theorem classify_item_total_exclusive (s : IWillDoListState) (item : Item) :
    (classify_item s item = Classification.invalid ∨
      classify_item s item = Classification.processed ∨
      classify_item s item = Classification.unprocessed) ∧
    (classify_item s item = Classification.invalid ↔
      get_copied_info_for_item s item = none) ∧
    (classify_item s item = Classification.processed ↔
      ∃ c, get_copied_info_for_item s item = some c ∧
        c.last_synchronized = s.upstream_sha) ∧
    (classify_item s item = Classification.unprocessed ↔
      ∃ c, get_copied_info_for_item s item = some c ∧
        c.last_synchronized ≠ s.upstream_sha) := by
  unfold classify_item
  rcases h : get_copied_info_for_item s item with _ | c
  · simp
  · by_cases hsha : c.last_synchronized = s.upstream_sha <;> simp [hsha]

/-- C2: a fetched result carrying an `error` key displays only the error
text and leaves all cached session state unchanged: the run command returns
the session state exactly as it was (in particular `line_to_item_mapping`
and `upstream_sha` hold their previous values) and the rendered output is
exactly the error text. -/
theorem update_with_data_error_frame (now : String) (s : IWillDoListState)
    (d : Data) (msg : String) :
    updateWithDataRun now s { d with error := some msg } =
      Except.ok (s, [msg]) ∧
    (∀ s2 out,
      updateWithDataRun now s { d with error := some msg } =
        Except.ok (s2, out) →
      s2.line_to_item_mapping = s.line_to_item_mapping ∧
        s2.upstream_sha = s.upstream_sha ∧ out = [msg]) := by
  refine ⟨rfl, fun s2 out h => ?_⟩
  have h2 : (Except.ok (s, [msg]) :
      Except String (IWillDoListState × List String)) = Except.ok (s2, out) := h
  cases h2
  exact ⟨rfl, rfl, rfl⟩

/-- C4: toggling a claim is the pure string-list edit the spec describes
(split on single spaces, empty string giving the empty list, remove the
identity if present else append it at the end preserving order, space-join),
and the three concrete examples of the spec hold. -/
theorem toggle_username_in_spec :
    (∀ current_user text : String,
      toggle_username_in current_user text = toggleClaimSpec current_user text) ∧
    toggle_username_in "alice" "alice bob" = "bob" ∧
    toggle_username_in "alice" "bob" = "bob alice" ∧
    toggle_username_in "alice" "" = "alice" := by
  refine ⟨fun current_user text => rfl, ?_, ?_, ?_⟩ <;> decide

/-! ## Theorems for C6, C7, C8, C9 -/

/-- C6: on an item with resolvable metadata, the diff action surfaces the
captured process output verbatim when the external diff exits with code 1,
and the literal string "No changes" for every other exit code (including
0). -/
theorem diff_exit_code_convention (s : IWillDoListState) (item : Item)
    (info : PathMetadata) (output : Option String) (returncode : Int)
    (h : get_copied_info_for_item s item = some info) :
    diff_item_result s item output returncode =
      some (if returncode = 1 then output else some "No changes") := by
  rw [diff_item_result, h, diff_displayed_output]
  by_cases h1 : returncode = 1 <;> simp [h1]

/-- Witness for C6 at a concrete session, item, output and both kinds of
exit code. -/
theorem diff_exit_code_convention_witness :
    diff_item_result sample_state sample_item (some "diff --git a/x b/x") 1 =
      some (some "diff --git a/x b/x") ∧
    diff_item_result sample_state sample_item (some "") 0 =
      some (some "No changes") := by
  constructor
  · have h := diff_exit_code_convention sample_state sample_item sample_info
      (some "diff --git a/x b/x") 1 rfl
    simpa using h
  · have h := diff_exit_code_convention sample_state sample_item sample_info
      (some "") 0 rfl
    simpa using h

theorem copied_info_scan_lookup (e : String → Bool)
    (c : String → PathMetadata) :
    ∀ (ps : List String) (d : String → Option PathMetadata) (q : String),
      copied_info_scan e c ps d q =
        if q ∈ ps ∧ e q = true then some (c q) else d q := by
  intro ps
  induction ps with
  | nil => intro d q; simp [copied_info_scan]
  | cons p ps ih =>
    intro d q
    simp only [copied_info_scan]
    rw [ih]
    by_cases hq : q ∈ ps ∧ e q = true
    · simp [hq.1, hq.2]
    · by_cases hqp : q = p
      · subst hqp
        by_cases he : e q = true
        · simp only [he, if_true, if_pos rfl]
          simp [he]
        · simp [he, hq]
      · by_cases he : e p = true <;> simp [he, hqp, hq]

/-- C7: the local metadata scan is a pure function of the path list and the
on-disk state.  Its result has an entry for exactly those input paths that
exist on disk (that entry being the created copied-file record), and two
runs over the same path list observing the same on-disk state yield
identical mappings. -/
theorem local_scan_pure (e e' : String → Bool)
    (c c' : String → PathMetadata) (ps : List String)
    (he : ∀ p ∈ ps, e p = e' p) (hc : ∀ p ∈ ps, c p = c' p) :
    (∀ q, copied_info_fetcher_run e c ps q =
        if q ∈ ps ∧ e q = true then some (c q) else none) ∧
    (∀ q, copied_info_fetcher_run e c ps q =
        copied_info_fetcher_run e' c' ps q) := by
  constructor
  · intro q
    exact copied_info_scan_lookup e c ps (fun _ => none) q
  · intro q
    rw [copied_info_fetcher_run, copied_info_fetcher_run,
      copied_info_scan_lookup, copied_info_scan_lookup]
    by_cases hq : q ∈ ps
    · rw [he q hq, hc q hq]
    · simp [hq]

/-- Witness for C7: a two-path scan where one path exists and one does not;
the existing path has exactly the created entry, the missing path has none,
and the second identical run agrees. -/
theorem local_scan_pure_witness :
    copied_info_fetcher_run (fun p => p = "/repo/a.cc")
        (fun _ => sample_info) ["/repo/a.cc", "/repo/gone.cc"] "/repo/a.cc" =
      some sample_info ∧
    copied_info_fetcher_run (fun p => p = "/repo/a.cc")
        (fun _ => sample_info) ["/repo/a.cc", "/repo/gone.cc"] "/repo/gone.cc" =
      none := by
  have h := local_scan_pure (fun p => decide (p = "/repo/a.cc"))
    (fun p => decide (p = "/repo/a.cc")) (fun _ => sample_info)
    (fun _ => sample_info) ["/repo/a.cc", "/repo/gone.cc"]
    (fun p _ => rfl) (fun p _ => rfl)
  constructor
  · have h1 := h.1 "/repo/a.cc"
    simpa using h1
  · have h2 := h.1 "/repo/gone.cc"
    simpa using h2

/-- C8 fails on the code: `on_data_fetched` does not run to completion on
the unified error payload.  The view-update step terminates normally and
displays the error text, but the metadata-scan kickoff step
(`update_copied_info_data`) reads `data['groups']` unconditionally and
raises `KeyError` since the error payload carries no `groups` key, so the
whole fetch-completion handler raises. -/
theorem on_data_fetched_keyerror :
    on_data_fetched "now" sample_state error_payload =
      Except.error "KeyError" ∧
    updateWithDataRun "now" sample_state error_payload =
      Except.ok (sample_state, ["Failed retrieving data. timeout"]) ∧
    update_copied_info_data sample_state error_payload =
      Except.error "KeyError" := by
  exact ⟨rfl, rfl, rfl⟩

/-- C9 fails on the code: resolving a selection whose regions cover the same
row twice yields that row's item twice, not once.  The per-region `lines`
dedup list is never appended to and is reset for every region, so nothing is
deduplicated by row number. -/
theorem selection_duplicate_rows :
    get_items_for_selection
        { sample_state with line_to_item_mapping := [(0, sample_item)] }
        [[0], [0]] = [sample_item, sample_item] := by
  rfl

/-! ## Theorems for C1 and C5 -/

/-- C1: once the subscriber view is detached by `on_view_closing`, the
completion of an in-flight fetch is consumer-invisible: the view handle is
`none`, `update_view_with_data` runs no view command for any data value, the
detached repeating worker's stop event has been set, and a worker whose stop
event is set begins no further fetch cycle. -/
theorem detach_silences_session (s : IWillDoListState) (vid t : Nat) :
    (on_view_closing { s with view := some vid, repeating_thread := some t }
      vid).view = none ∧
    (∀ data : Data,
      update_view_with_data
        (on_view_closing
          { s with view := some vid, repeating_thread := some t } vid)
        data = []) ∧
    t ∈ (on_view_closing
        { s with view := some vid, repeating_thread := some t }
        vid).stopped_threads ∧
    (∀ repeating : Bool, worker_begins_next_cycle repeating true = false) := by
  refine ⟨?_, ?_, ?_, fun repeating => by simp [worker_begins_next_cycle]⟩
  all_goals
    simp [on_view_closing, stop_repeating_thread_if_started,
      update_view_with_data]

theorem trigger_update_false_view (s : IWillDoListState) (r : Bool) :
    (trigger_update s r false).view = s.view := by
  rcases hv : s.view with _ | vid <;>
    rcases hr : s.repeating_thread with _ | t <;> cases r <;>
      simp [trigger_update, stop_repeating_thread_if_started, hv, hr]

theorem trigger_update_step (s : IWillDoListState) (vid : Nat)
    (hv : s.view = some vid) :
    (trigger_update s true false).repeating_thread = some s.next_thread_id ∧
    (∀ t, s.repeating_thread = some t →
      t ∈ (trigger_update s true false).stopped_threads) ∧
    (trigger_update s true false).stored_repeating_history =
      s.next_thread_id :: s.stored_repeating_history ∧
    s.stopped_threads ⊆ (trigger_update s true false).stopped_threads ∧
    (∀ t ∈ (trigger_update s true false).stopped_threads,
      t ∈ s.stopped_threads ∨ s.repeating_thread = some t) ∧
    s.next_thread_id < (trigger_update s true false).next_thread_id := by
  rcases hr : s.repeating_thread with _ | t
  all_goals
    simp [trigger_update, stop_repeating_thread_if_started, hv, hr,
      List.subset_def]
  tauto

theorem trigger_update_preserves_invariant (s : IWillDoListState) (vid : Nat)
    (hv : s.view = some vid) (h : RepeatingInvariant s) :
    RepeatingInvariant (trigger_update s true false) := by
  obtain ⟨h1, h2, h3⟩ := h
  obtain ⟨g1, g2, g3, g4, g5, g6⟩ := trigger_update_step s vid hv
  refine ⟨?_, ?_, ?_⟩
  · intro t ht
    rw [g3, List.mem_cons] at ht
    rcases ht with ht | ht
    · exact Or.inl (by rw [g1, ht])
    · rcases h1 t ht with hcur | hstop
      · exact Or.inr (g2 t hcur)
      · exact Or.inr (g4 hstop)
  · intro t ht
    rw [g1] at ht
    injection ht with ht
    subst ht
    constructor
    · intro habs
      rcases g5 _ habs with habs | habs
      · exact absurd (h3 _ habs) (by omega)
      · exact absurd (h2 _ habs).2 (by omega)
    · exact g6
  · intro t ht
    rcases g5 t ht with ht' | ht'
    · exact lt_trans (h3 t ht') g6
    · exact lt_trans (h2 t ht').2 g6

theorem apply_triggers_view (s : IWillDoListState) (n : Nat) :
    (apply_triggers s n).view = s.view := by
  induction n with
  | zero => rfl
  | succ n ih => rw [apply_triggers, trigger_update_false_view, ih]

theorem apply_triggers_invariant (s : IWillDoListState) (vid : Nat)
    (hv : s.view = some vid) (h : RepeatingInvariant s) (n : Nat) :
    RepeatingInvariant (apply_triggers s n) := by
  induction n with
  | zero => exact h
  | succ n ih =>
    exact trigger_update_preserves_invariant (apply_triggers s n) vid
      (by rw [apply_triggers_view, hv]) ih

/-- C5: at most one repeating poll loop is active per session.  Starting
from a session with an attached view and no repeating worker, after any
nonempty sequence of `trigger_update(repeating=True)` calls exactly one
repeating handle is stored, every previously stored handle has been
signalled to stop, and the stored one has not; moreover one such call on a
session with an active repeating worker signals that old worker to stop and
stores the freshly created worker as the active one. -/
theorem at_most_one_repeating_worker (s : IWillDoListState) (vid n : Nat) :
    ((∃ tid,
        (apply_triggers
          { s with view := some vid, repeating_thread := none,
                   stopped_threads := [], stored_repeating_history := [] }
          (n + 1)).repeating_thread = some tid) ∧
      (∀ tid ∈ (apply_triggers
          { s with view := some vid, repeating_thread := none,
                   stopped_threads := [], stored_repeating_history := [] }
          (n + 1)).stored_repeating_history,
        (apply_triggers
          { s with view := some vid, repeating_thread := none,
                   stopped_threads := [], stored_repeating_history := [] }
          (n + 1)).repeating_thread = some tid ∨
        tid ∈ (apply_triggers
          { s with view := some vid, repeating_thread := none,
                   stopped_threads := [], stored_repeating_history := [] }
          (n + 1)).stopped_threads) ∧
      (∀ tid,
        (apply_triggers
          { s with view := some vid, repeating_thread := none,
                   stopped_threads := [], stored_repeating_history := [] }
          (n + 1)).repeating_thread = some tid →
        tid ∉ (apply_triggers
          { s with view := some vid, repeating_thread := none,
                   stopped_threads := [], stored_repeating_history := [] }
          (n + 1)).stopped_threads)) ∧
    (∀ (u : IWillDoListState) (w told : Nat),
      (trigger_update
        { u with view := some w, repeating_thread := some told }
        true false).repeating_thread = some u.next_thread_id ∧
      told ∈ (trigger_update
        { u with view := some w, repeating_thread := some told }
        true false).stopped_threads) := by
  constructor
  · set s0 : IWillDoListState :=
      { s with view := some vid, repeating_thread := none,
               stopped_threads := [], stored_repeating_history := [] } with hs0
    have hv0 : s0.view = some vid := rfl
    have hinv0 : RepeatingInvariant s0 := by
      refine ⟨?_, ?_, ?_⟩ <;> simp [hs0]
    have hinv := apply_triggers_invariant s0 vid hv0 hinv0 (n + 1)
    have hview : (apply_triggers s0 n).view = some vid := by
      rw [apply_triggers_view]
    obtain ⟨g1, -⟩ := trigger_update_step (apply_triggers s0 n) vid hview
    refine ⟨⟨_, g1⟩, hinv.1, fun tid ht => (hinv.2.1 tid ht).1⟩
  · intro u w told
    obtain ⟨g1, g2, -⟩ := trigger_update_step
      { u with view := some w, repeating_thread := some told } w rfl
    exact ⟨g1, g2 told rfl⟩

/-! ## Theorems for C10 -/

theorem count_nl_append (a b : String) :
    count_nl (a ++ b) = count_nl a + count_nl b := by
  simp [count_nl, String.data_append]

theorem count_nl_join (t : String) :
    ∀ ts : List String,
      count_nl (join_nl (t :: ts)) =
        count_nl t + (ts.length + (ts.map count_nl).sum) := by
  intro ts
  induction ts generalizing t with
  | nil => simp [join_nl]
  | cons u rest ih =>
    have : join_nl (t :: u :: rest) = t ++ "\n" ++ join_nl (u :: rest) := rfl
    rw [this, count_nl_append, count_nl_append, ih u]
    have hnl : count_nl "\n" = 1 := rfl
    rw [hnl]
    simp
    omega

theorem add_lines_output (ts : List String) :
    ∀ b : LineBuffer, (add_lines b ts).output = b.output ++ ts := by
  induction ts with
  | nil => intro b; simp [add_lines]
  | cons t rest ih =>
    intro b
    have step : add_lines b (t :: rest) = add_lines (add_line b t) rest := rfl
    rw [step, ih (add_line b t)]
    simp [add_line]

theorem add_lines_current_line (ts : List String) :
    ∀ b : LineBuffer,
      (add_lines b ts).current_line =
        b.current_line + ts.length + (ts.map count_nl).sum := by
  induction ts with
  | nil => intro b; simp [add_lines]
  | cons t rest ih =>
    intro b
    have step : add_lines b (t :: rest) = add_lines (add_line b t) rest := rfl
    rw [step, ih (add_line b t)]
    simp [add_line]
    omega

theorem rows_before_append (out : List String) (t : String) :
    rows_before (out ++ [t]) = rows_before out + count_nl t + 1 := by
  simp [rows_before]
  omega

theorem add_line_keeps_row_count (b : LineBuffer) (t : String)
    (h : b.current_line = rows_before b.output) :
    (add_line b t).current_line = rows_before (add_line b t).output := by
  simp only [add_line]
  rw [rows_before_append, h]

theorem mapping_positioned_extend (m : List (Nat × Item))
    (out : List String) (t : String) (h : mapping_positioned m out) :
    mapping_positioned m (out ++ [t]) := by
  intro k item hk
  obtain ⟨pre, post, h1, h2⟩ := h k item hk
  exact ⟨pre, post ++ [t], by rw [h1]; simp, h2⟩

theorem render_items_invariant (items : List Item) :
    ∀ (b : LineBuffer) (m : List (Nat × Item)),
      b.current_line = rows_before b.output →
      mapping_positioned m b.output →
      ((render_items b m items).1.current_line =
          rows_before (render_items b m items).1.output ∧
        mapping_positioned (render_items b m items).2
          (render_items b m items).1.output) := by
  induction items with
  | nil => intro b m h1 h2; exact ⟨h1, h2⟩
  | cons item rest ih =>
    intro b m h1 h2
    have step : render_items b m (item :: rest) =
        render_items (add_line b (item_line item))
          (m ++ [(b.current_line, item)]) rest := rfl
    rw [step]
    apply ih
    · exact add_line_keeps_row_count b (item_line item) h1
    · intro k it hk
      rw [List.mem_append, List.mem_singleton] at hk
      rcases hk with hk | hk
      · exact mapping_positioned_extend m b.output (item_line item) h2 k it hk
      · injection hk with hk1 hk2
        subst hk1
        subst hk2
        exact ⟨b.output, [], by simp [add_line], h1⟩

theorem render_groups_invariant (groups : List Group) :
    ∀ (b : LineBuffer) (m : List (Nat × Item)),
      b.current_line = rows_before b.output →
      mapping_positioned m b.output →
      ((render_groups b m groups).1.current_line =
          rows_before (render_groups b m groups).1.output ∧
        mapping_positioned (render_groups b m groups).2
          (render_groups b m groups).1.output) := by
  induction groups with
  | nil => intro b m h1 h2; exact ⟨h1, h2⟩
  | cons g rest ih =>
    intro b m h1 h2
    have step : render_groups b m (g :: rest) =
        render_groups
          (add_line (render_items (add_line b g.title) m g.items).1 "")
          (render_items (add_line b g.title) m g.items).2 rest := rfl
    rw [step]
    have hb1 : (add_line b g.title).current_line =
        rows_before (add_line b g.title).output :=
      add_line_keeps_row_count b g.title h1
    have hm1 : mapping_positioned m (add_line b g.title).output :=
      mapping_positioned_extend m b.output g.title h2
    obtain ⟨h3, h4⟩ := render_items_invariant g.items (add_line b g.title) m
      hb1 hm1
    apply ih
    · exact add_line_keeps_row_count _ "" h3
    · exact mapping_positioned_extend _ _ "" h4

/-- C10: row accounting of the rendering buffer.  Starting from
`_reset_line_data`, after any sequence of `_add_line` calls the buffer holds
exactly the added texts and `_current_line` equals the total number of lines
of the joined output — zero for the empty sequence, one plus the number of
newline characters in `_get_output()` otherwise.  Consequently, in every
rendering of a fetched list, every key stored in the line-to-item mapping is
the count of rendered rows preceding that item's line, i.e. the 0-based
rendered row on which that item's line begins. -/
theorem row_accounting (ts : List String) (now : String)
    (s : IWillDoListState) (bts title base : String) (groups : List Group) :
    ((add_lines reset_line_data ts).output = ts ∧
      (add_lines reset_line_data ts).current_line =
        (if ts = [] then 0 else count_nl (join_nl ts) + 1)) ∧
    (match updateWithDataRun now s
        { error := none, bts_issue := some bts, title := some title,
          base_commit := some base, groups := some groups } with
      | Except.ok (s2, out) => mapping_positioned s2.line_to_item_mapping out
      | Except.error _ => False) := by
  constructor
  · constructor
    · rw [add_lines_output]
      rfl
    · rw [add_lines_current_line]
      cases ts with
      | nil => rfl
      | cons t rest =>
        rw [count_nl_join]
        simp [reset_line_data]
        omega
  · show mapping_positioned (render_groups (add_lines reset_line_data
      (header_lines now s.mergetool bts title base)) [] groups).2
      (render_groups (add_lines reset_line_data
        (header_lines now s.mergetool bts title base)) [] groups).1.output
    have hb : (add_lines reset_line_data
        (header_lines now s.mergetool bts title base)).current_line =
        rows_before (add_lines reset_line_data
          (header_lines now s.mergetool bts title base)).output := by
      rw [add_lines_current_line, add_lines_output]
      simp [reset_line_data, rows_before]
    have hm : mapping_positioned []
        (add_lines reset_line_data
          (header_lines now s.mergetool bts title base)).output := by
      intro k item hk
      simp at hk
    exact (render_groups_invariant groups _ [] hb hm).2

end IntakeToolkit
